import Mathlib

/-!
# Featured-post extraction pipeline of `FeaturedPostsSection.js`

Shallow embedding of the `fetchPosts` effect of the component
(`src/components/FeaturedPostsSection.js`, lines 10-67): the three pieces of
React state, the `try`/`catch` around the request, and the
`filter` / `sort` / `map` chain that turns the raw post list into the
normalized records.

Modelling conventions.

* The payload is typed as the record the code reads (`id`, `content.rendered`,
  `acf.*`, `featured_media_url`).  A property the code guards with `&&` / `||`
  or that may be `undefined` is an `Option`; `none` stands for a missing
  (`undefined` / `null`) value.
* A JavaScript exception is the `Except.error` result.
* `featured_position` is an integer; the comparator only uses the sign of the
  difference of two positions.
* The HTML parser of the browser (`tempDiv.innerHTML = ...`) is not part of the
  repository: it is a parameter `parse`, from the HTML string to the list of
  child nodes of `tempDiv`.  The `src` property of an element is its `src`
  attribute resolved against the URL of the document, so `parse` is the parser
  of one document; `sampleParseIn` makes the document URL explicit.
* `Array.prototype.sort` is the stable sort of the language standard; it is
  modelled by a stable insertion sort driven by the comparator of the source.
-/

namespace Sensorium

/-! ## The parsed document fragment -/

/-- DOM node of the parsed fragment: a text node, or an element with its local
name, its class tokens, the value its `src` property reflects (`""` when the
attribute is missing) and its child nodes. -/
inductive Node where
  | text : String → Node
  | element : String → List String → String → List Node → Node
  deriving Repr

/-- Local name of a node (`""` for a text node, which no selector matches). -/
def Node.tag : Node → String
  | .text _ => ""
  | .element t _ _ _ => t

/-- Class tokens of a node. -/
def Node.classList : Node → List String
  | .text _ => []
  | .element _ cs _ _ => cs

/-- The `src` property of a node. -/
def Node.src : Node → String
  | .text _ => ""
  | .element _ _ s _ => s

/-- Child nodes of a node. -/
def Node.childNodes : Node → List Node
  | .text _ => []
  | .element _ _ _ ch => ch

/-- Whether the node is an element. -/
def Node.isElement : Node → Bool
  | .text _ => false
  | .element _ _ _ _ => true

mutual
/-- The element itself followed by its descendants, in document order. -/
def Node.subtree : Node → List Node
  | .text _ => []
  | .element t cs s ch => Node.element t cs s ch :: subtrees ch
/-- Elements of a list of sibling trees, in document order. -/
def subtrees : List Node → List Node
  | [] => []
  | n :: ns => n.subtree ++ subtrees ns
end

/-- `root.querySelectorAll(sel)`: the descendant elements of a root with child
nodes `children` that match `sel`, in document order (the root itself is never
returned). -/
def querySelectorAll (sel : Node → Bool) (children : List Node) : List Node :=
  (subtrees children).filter sel

/-- Selector `.gallery, .wp-block-gallery`. -/
def gallerySelector (n : Node) : Bool :=
  n.isElement && (n.classList.contains "gallery" || n.classList.contains "wp-block-gallery")

/-- Selector `img`. -/
def imgSelector (n : Node) : Bool :=
  n.isElement && n.tag == "img"

/-! ## Payload and output records -/

/-- The `acf` object of a raw post. -/
structure Acf where
  featured : Bool
  featured_position : Option Int
  title : Option String
  excerpt : Option String
  content : Option String
  thumbnail : Option String
  album : Option (List String)
  deriving DecidableEq, Repr

/-- The `content` object of a raw post. -/
structure Content where
  rendered : String
  deriving DecidableEq, Repr

/-- One entry of `response.data`. -/
structure RawPost where
  id : Int
  content : Option Content
  acf : Option Acf
  featured_media_url : Option String
  deriving DecidableEq, Repr

/-- The record built by the `map` callback. -/
structure NormalizedPost where
  id : Int
  title : Option String
  excerpt : Option String
  content : Option String
  thumbnail : Option String
  album : List String
  deriving DecidableEq, Repr

/-- What a `throw` carries: the rejection of the request, or a `TypeError`
raised by a property read on `undefined`. -/
inductive Exn where
  | network
  | typeError
  deriving DecidableEq, Repr

deriving instance DecidableEq for Except

/-! ## JavaScript truthiness on optional strings -/

/-- Truthiness of a value that is a string or `undefined`: `undefined` and the
empty string are falsy. -/
def truthy : Option String → Bool
  | none => false
  | some s => s != ""

/-- The operator `a || b`. -/
def jsOr (a b : Option String) : Option String :=
  if truthy a then a else b

/-! ## The filter / sort / map chain -/

/-- Filter predicate `post => post.acf && post.acf.featured`. -/
def isFeatured (post : RawPost) : Bool :=
  match post.acf with
  | none => false
  | some acf => acf.featured

/-- Value of `post.acf.featured_position || 0` (a missing position and the
position `0` both give `0`); it is only evaluated on posts that passed the
filter. -/
def position (post : RawPost) : Int :=
  match post.acf with
  | none => 0
  | some acf => acf.featured_position.getD 0

/-- Comparator `(a, b) => (a.acf.featured_position || 0) - (b.acf.featured_position || 0)`. -/
def comparator (a b : RawPost) : Int :=
  position a - position b

/-- Insertion step of the stable sort: `a`, which precedes every element of the
sorted list in the input, is placed before the first `b` with
`cmp a b ≤ 0`. -/
def sortInsert (cmp : RawPost → RawPost → Int) (a : RawPost) : List RawPost → List RawPost
  | [] => [a]
  | b :: l => if cmp a b ≤ 0 then a :: b :: l else b :: sortInsert cmp a l

/-- `Array.prototype.sort(cmp)` as a stable sort. -/
def sort (cmp : RawPost → RawPost → Int) : List RawPost → List RawPost
  | [] => []
  | a :: l => sortInsert cmp a (sort cmp l)

/-- `gallerySources`: for each gallery container, in document order, the `src`
of each `img` below it. -/
def gallerySources (dom : List Node) : List String :=
  (querySelectorAll gallerySelector dom).flatMap
    (fun gallery => (querySelectorAll imgSelector gallery.childNodes).map Node.src)

/-- `combinedAlbum = [...(post.acf.album || []), ...gallerySources]`. -/
def combinedAlbum (acf : Acf) (sources : List String) : List String :=
  acf.album.getD [] ++ sources

/-- `[post.acf.thumbnail || post.featured_media_url].filter(Boolean)`; the
values that survive the filter are strings. -/
def fallbackAlbum (acf : Acf) (featured_media_url : Option String) : List String :=
  ([jsOr acf.thumbnail featured_media_url].filter truthy).filterMap id

/-- The `album` constant of the callback. -/
def album (acf : Acf) (featured_media_url : Option String) (sources : List String) :
    List String :=
  if (combinedAlbum acf sources).length > 0 then combinedAlbum acf sources
  else fallbackAlbum acf featured_media_url

/-- The `map` callback.  Reading `post.content.rendered` raises when
`post.content` is missing; reading `post.acf.album` raises when `post.acf` is
missing (which the filter excludes). -/
def normalize (parse : String → List Node) (post : RawPost) : Except Exn NormalizedPost :=
  match post.content with
  | none => .error .typeError
  | some content =>
    let sources := gallerySources (parse content.rendered)
    match post.acf with
    | none => .error .typeError
    | some acf =>
      .ok { id := post.id
            title := acf.title
            excerpt := acf.excerpt
            content := acf.content
            thumbnail := acf.thumbnail
            album := album acf post.featured_media_url sources }

/-- `allPosts.filter(...).sort(...)`: the featured posts in display order. -/
def selectFeatured (allPosts : List RawPost) : List RawPost :=
  sort comparator (allPosts.filter isFeatured)

/-- `Array.prototype.map` with a callback that may raise: the first exception
aborts the whole map. -/
def mapExcept (f : RawPost → Except Exn NormalizedPost) :
    List RawPost → Except Exn (List NormalizedPost)
  | [] => .ok []
  | p :: ps =>
    match f p with
    | .error e => .error e
    | .ok r =>
      match mapExcept f ps with
      | .error e => .error e
      | .ok rs => .ok (r :: rs)

/-- The constant `featuredPosts` of `fetchPosts`. -/
def featuredPosts (parse : String → List Node) (allPosts : List RawPost) :
    Except Exn (List NormalizedPost) :=
  mapExcept (normalize parse) (selectFeatured allPosts)

/-! ## Component state and the effect -/

/-- The three `useState` cells. -/
structure State where
  posts : List NormalizedPost
  loading : Bool
  error : Option String
  deriving DecidableEq, Repr

/-- State at mount: `useState([])`, `useState(true)`, `useState(null)`. -/
def initialState : State :=
  { posts := [], loading := true, error := none }

/-- The `catch` branch: `setError('Failed to fetch posts'); setLoading(false)`. -/
def onCatch (st : State) : State :=
  { st with error := some "Failed to fetch posts", loading := false }

/-- The effect `fetchPosts`, given the outcome of `axios.get`. -/
def fetchPosts (parse : String → List Node) (response : Except Exn (List RawPost))
    (st : State) : State :=
  match response with
  | .error _ => onCatch st
  | .ok allPosts =>
    match featuredPosts parse allPosts with
    | .error _ => onCatch st
    | .ok featured => { st with posts := featured, loading := false }

/-- State the component reaches after its single run of the effect. -/
def run (parse : String → List Node) (response : Except Exn (List RawPost)) : State :=
  fetchPosts parse response initialState

/-! ## The gallery images as the specification words them -/

mutual
/-- Following the specification: the source URLs of the images of the subtree
of a node that lie inside a gallery container, each image once, in document
order.  `inside` tells whether an ancestor of the node is a gallery
container. -/
def Node.galleryImagesOnce (inside : Bool) : Node → List String
  | .text _ => []
  | .element t cs s ch =>
    (if inside && imgSelector (Node.element t cs s ch) then [s] else []) ++
      galleryImagesOnceList (inside || gallerySelector (Node.element t cs s ch)) ch
/-- The same over a list of sibling trees. -/
def galleryImagesOnceList (inside : Bool) : List Node → List String
  | [] => []
  | n :: ns => n.galleryImagesOnce inside ++ galleryImagesOnceList inside ns
end

/-- Following the specification: the images of a parsed content that are
contained in some gallery container, each once, in document order. -/
def specGalleryImages (dom : List Node) : List String :=
  galleryImagesOnceList false dom

/-- No gallery container of the fragment lies inside another one. -/
def noNestedGallery (dom : List Node) : Bool :=
  (querySelectorAll gallerySelector dom).all
    (fun g => (querySelectorAll gallerySelector g.childNodes).isEmpty)

/-! ## Sample payloads -/

/-- An `acf` object with nothing set but the `featured` flag. -/
def bareAcf (featured : Bool) : Acf :=
  { featured := featured, featured_position := none, title := none, excerpt := none,
    content := none, thumbnail := none, album := none }

/-- Markup of a block gallery with three images, followed by a loose image. -/
def galleryHtml : String :=
  "<figure class=wp-block-gallery><img src=a.jpg><img src=b.jpg><img src=c.jpg></figure><img src=z.jpg>"

/-- Markup of a classic gallery that holds a block gallery. -/
def nestedHtml : String :=
  "<div class=gallery><img src=a.jpg><figure class=wp-block-gallery><img src=b.jpg></figure><img src=c.jpg></div>"

/-- Parse tree of `galleryHtml`. -/
def galleryDom : List Node :=
  [ .element "figure" ["wp-block-gallery"] ""
      [ .element "img" [] "a.jpg" [], .element "img" [] "b.jpg" [],
        .element "img" [] "c.jpg" [] ],
    .element "img" [] "z.jpg" [] ]

/-- Parse tree of `nestedHtml`. -/
def nestedDom : List Node :=
  [ .element "div" ["gallery"] ""
      [ .element "img" [] "a.jpg" [],
        .element "figure" ["wp-block-gallery"] "" [ .element "img" [] "b.jpg" [] ],
        .element "img" [] "c.jpg" [] ] ]

/-- A parser that knows the two sample documents and reads any other string as
plain text. -/
def sampleParse (html : String) : List Node :=
  if html = galleryHtml then galleryDom
  else if html = nestedHtml then nestedDom
  else [.text html]

/-- A post that is not featured. -/
def plainPost : RawPost :=
  { id := 1, content := some ⟨"<p>one</p>"⟩, acf := some (bareAcf false),
    featured_media_url := some "media1.jpg" }

/-- A featured post at position 1 with a thumbnail and no gallery. -/
def firstPost : RawPost :=
  { id := 2, content := some ⟨"<p>two</p>"⟩,
    acf := some { bareAcf true with featured_position := some 1, title := some "Two",
                                    thumbnail := some "thumb2.jpg" },
    featured_media_url := some "media2.jpg" }

/-- A featured post at position 2 with an explicit album and a gallery. -/
def secondPost : RawPost :=
  { id := 3, content := some ⟨galleryHtml⟩,
    acf := some { bareAcf true with featured_position := some 2,
                                    album := some ["x.jpg", "y.jpg"] },
    featured_media_url := none }

/-- A featured post without position and without album whose content is the
gallery sample. -/
def galleryPost : RawPost :=
  { id := 4, content := some ⟨galleryHtml⟩, acf := some (bareAcf true),
    featured_media_url := none }

/-- A featured post at position 0 whose content is the nested sample. -/
def nestedPost : RawPost :=
  { id := 5, content := some ⟨nestedHtml⟩,
    acf := some { bareAcf true with featured_position := some 0 },
    featured_media_url := none }

/-- A featured post that has no `content` object. -/
def brokenPost : RawPost :=
  { id := 6, content := none, acf := some (bareAcf true), featured_media_url := none }

/-- A post that has neither `acf` nor `content`. -/
def acflessPost : RawPost :=
  { id := 7, content := none, acf := none, featured_media_url := none }

/-! ## The document the fragment is parsed in -/

mutual
/-- A node as a document at `documentURL` shows it: the `src` property of an
element is its `src` attribute resolved against the document URL.  The
resolution covers a relative path without leading slash against a document
URL that ends in a slash; a missing attribute reflects as `""`. -/
def Node.reflectSrc (documentURL : String) : Node → Node
  | .text s => .text s
  | .element t cs s ch =>
    .element t cs (if s = "" then "" else documentURL ++ s) (reflectSrcList documentURL ch)
/-- The same over a list of sibling trees. -/
def reflectSrcList (documentURL : String) : List Node → List Node
  | [] => []
  | n :: ns => n.reflectSrc documentURL :: reflectSrcList documentURL ns
end

/-- The sample parser in a document at `documentURL`: the `src` attributes of
the sample markup are relative paths, and `img.src` gives them resolved. -/
def sampleParseIn (documentURL : String) (html : String) : List Node :=
  reflectSrcList documentURL (sampleParse html)

/-! ## The stable sort -/

theorem sortInsert_perm (cmp : RawPost → RawPost → Int) (a : RawPost) (l : List RawPost) :
    (sortInsert cmp a l).Perm (a :: l) := by
  induction l with
  | nil => exact List.Perm.refl _
  | cons b l ih =>
    unfold sortInsert
    split
    · exact List.Perm.refl _
    · exact (List.Perm.cons b ih).trans (List.Perm.swap a b l)

theorem sort_perm (cmp : RawPost → RawPost → Int) (l : List RawPost) :
    (sort cmp l).Perm l := by
  induction l with
  | nil => exact List.Perm.refl _
  | cons a l ih =>
    exact (sortInsert_perm cmp a (sort cmp l)).trans (List.Perm.cons a ih)

theorem sortInsert_pairwise (a : RawPost) (l : List RawPost)
    (h : l.Pairwise (fun x y => position x ≤ position y)) :
    (sortInsert comparator a l).Pairwise (fun x y => position x ≤ position y) := by
  induction l with
  | nil => simp [sortInsert]
  | cons b l ih =>
    rw [List.pairwise_cons] at h
    unfold sortInsert
    split
    · rename_i hab
      have hab' : position a ≤ position b := by
        unfold comparator at hab
        omega
      refine List.pairwise_cons.mpr ⟨?_, List.pairwise_cons.mpr h⟩
      intro x hx
      rcases List.mem_cons.mp hx with rfl | hx
      · exact hab'
      · exact le_trans hab' (h.1 x hx)
    · rename_i hab
      have hab' : position b < position a := by
        unfold comparator at hab
        omega
      refine List.pairwise_cons.mpr ⟨?_, ih h.2⟩
      intro x hx
      rcases List.mem_cons.mp ((sortInsert_perm comparator a l).subset hx) with rfl | hx
      · exact le_of_lt hab'
      · exact h.1 x hx

theorem sort_pairwise (l : List RawPost) :
    (sort comparator l).Pairwise (fun x y => position x ≤ position y) := by
  induction l with
  | nil => exact List.Pairwise.nil
  | cons a l ih => exact sortInsert_pairwise a (sort comparator l) ih

theorem sortInsert_filter_position (k : Int) (a : RawPost) (l : List RawPost) :
    (sortInsert comparator a l).filter (fun p => decide (position p = k))
      = (a :: l).filter (fun p => decide (position p = k)) := by
  induction l with
  | nil => rfl
  | cons b l ih =>
    unfold sortInsert
    split
    · rfl
    · rename_i hab
      have hab' : position b < position a := by
        unfold comparator at hab
        omega
      rw [List.filter_cons, ih]
      by_cases hak : position a = k
      · have hbk : ¬ position b = k := by omega
        simp [List.filter_cons, hak, hbk]
      · simp [List.filter_cons, hak]

theorem sort_filter_position (k : Int) (l : List RawPost) :
    (sort comparator l).filter (fun p => decide (position p = k))
      = l.filter (fun p => decide (position p = k)) := by
  induction l with
  | nil => rfl
  | cons a l ih =>
    show (sortInsert comparator a (sort comparator l)).filter _ = _
    rw [sortInsert_filter_position, List.filter_cons, List.filter_cons, ih]

/-! ## The map with a raising callback -/

theorem mapExcept_ok_iff (f : RawPost → Except Exn NormalizedPost) (l : List RawPost)
    (out : List NormalizedPost) :
    mapExcept f l = .ok out ↔ List.Forall₂ (fun p r => f p = .ok r) l out := by
  induction l generalizing out with
  | nil =>
    constructor
    · intro h
      simp only [mapExcept, Except.ok.injEq] at h
      subst h
      exact List.Forall₂.nil
    · intro h
      cases h
      rfl
  | cons p ps ih =>
    constructor
    · intro h
      unfold mapExcept at h
      cases hf : f p with
      | error e => simp [hf] at h
      | ok r =>
        cases hm : mapExcept f ps with
        | error e => simp [hf, hm] at h
        | ok rs =>
          simp only [hf, hm, Except.ok.injEq] at h
          subst h
          exact List.Forall₂.cons hf ((ih rs).mp hm)
    · intro h
      cases h with
      | cons hf hrest =>
        unfold mapExcept
        simp [hf, (ih _).mpr hrest]

theorem mapExcept_error_of_mem (f : RawPost → Except Exn NormalizedPost) (l : List RawPost)
    (p : RawPost) (hp : p ∈ l) (e : Exn) (hf : f p = .error e) :
    ∃ e', mapExcept f l = .error e' := by
  induction l with
  | nil => cases hp
  | cons q qs ih =>
    unfold mapExcept
    cases hq : f q with
    | error e' => exact ⟨e', rfl⟩
    | ok r =>
      rcases List.mem_cons.mp hp with rfl | hp
      · rw [hf] at hq
        cases hq
      · obtain ⟨e', he'⟩ := ih hp
        exact ⟨e', by simp [he']⟩

theorem mapExcept_congr (f g : RawPost → Except Exn NormalizedPost) (l : List RawPost)
    (h : ∀ p ∈ l, f p = g p) : mapExcept f l = mapExcept g l := by
  induction l with
  | nil => rfl
  | cons q qs ih =>
    unfold mapExcept
    rw [h q (List.mem_cons_self q qs), ih (fun p hp => h p (List.mem_cons_of_mem q hp))]

/-! ## Gallery scraping -/

mutual
theorem galleryImagesOnce_inside : ∀ n : Node,
    n.galleryImagesOnce true = ((n.subtree).filter imgSelector).map Node.src
  | .text _ => rfl
  | .element t cs s ch => by
    have ih := galleryImagesOnceList_inside ch
    by_cases hi : imgSelector (Node.element t cs s ch) = true
    · simp [Node.galleryImagesOnce, Node.subtree, List.filter_cons, hi, ih, Node.src]
    · simp [Node.galleryImagesOnce, Node.subtree, List.filter_cons, hi, ih]
theorem galleryImagesOnceList_inside : ∀ ns : List Node,
    galleryImagesOnceList true ns = ((subtrees ns).filter imgSelector).map Node.src
  | [] => rfl
  | n :: ns => by
    have h1 := galleryImagesOnce_inside n
    have h2 := galleryImagesOnceList_inside ns
    simp [galleryImagesOnceList, subtrees, h1, h2]
end

mutual
theorem galleryImagesOnce_outside : ∀ n : Node,
    (∀ g ∈ (n.subtree).filter gallerySelector,
      (subtrees g.childNodes).filter gallerySelector = []) →
    n.galleryImagesOnce false = ((n.subtree).filter gallerySelector).flatMap
      (fun g => ((subtrees g.childNodes).filter imgSelector).map Node.src)
  | .text _ => fun _ => rfl
  | .element t cs s ch => by
    intro h
    by_cases hg : gallerySelector (Node.element t cs s ch) = true
    · have hch : (subtrees ch).filter gallerySelector = [] :=
        h (Node.element t cs s ch) (by simp [Node.subtree, List.filter_cons, hg])
      have hin := galleryImagesOnceList_inside ch
      simp [Node.galleryImagesOnce, Node.subtree, List.filter_cons, hg, hch, hin,
        Node.childNodes]
    · have ih := galleryImagesOnceList_outside ch (fun g hgm =>
        h g (by simpa [Node.subtree, List.filter_cons, hg] using hgm))
      simp [Node.galleryImagesOnce, Node.subtree, List.filter_cons, hg, ih]
theorem galleryImagesOnceList_outside : ∀ ns : List Node,
    (∀ g ∈ (subtrees ns).filter gallerySelector,
      (subtrees g.childNodes).filter gallerySelector = []) →
    galleryImagesOnceList false ns = ((subtrees ns).filter gallerySelector).flatMap
      (fun g => ((subtrees g.childNodes).filter imgSelector).map Node.src)
  | [] => fun _ => rfl
  | n :: ns => by
    intro h
    have h1 := galleryImagesOnce_outside n (fun g hgm =>
      h g (by
        simp only [subtrees, List.filter_append, List.mem_append]
        exact Or.inl hgm))
    have h2 := galleryImagesOnceList_outside ns (fun g hgm =>
      h g (by
        simp only [subtrees, List.filter_append, List.mem_append]
        exact Or.inr hgm))
    simp [galleryImagesOnceList, subtrees, h1, h2]
end

theorem specGalleryImages_eq_gallerySources (dom : List Node)
    (h : noNestedGallery dom = true) : specGalleryImages dom = gallerySources dom := by
  apply galleryImagesOnceList_outside dom
  intro g hg
  unfold noNestedGallery querySelectorAll at h
  rw [List.all_eq_true] at h
  exact List.isEmpty_iff.mp (h g hg)

theorem gallerySources_ne_nil_iff (dom : List Node) :
    gallerySources dom ≠ [] ↔
      ∃ g ∈ subtrees dom, gallerySelector g = true ∧
        ∃ i ∈ subtrees g.childNodes, imgSelector i = true := by
  unfold gallerySources querySelectorAll
  rw [Ne, List.flatMap_eq_nil_iff]
  constructor
  · intro h
    by_contra hc
    apply h
    intro g hg
    rw [List.mem_filter] at hg
    rw [List.map_eq_nil_iff, List.filter_eq_nil_iff]
    intro i hi himg
    exact hc ⟨g, hg.1, hg.2, i, hi, himg⟩
  · rintro ⟨g, hg, hgs, i, hi, himg⟩ h
    have := h g (List.mem_filter.mpr ⟨hg, hgs⟩)
    rw [List.map_eq_nil_iff, List.filter_eq_nil_iff] at this
    exact this i hi himg

/-! ## The callback on a well-formed featured post -/

theorem normalize_eq (parse : String → List Node) (post : RawPost) (acf : Acf)
    (content : Content) (hacf : post.acf = some acf) (hc : post.content = some content) :
    normalize parse post = .ok
      { id := post.id, title := acf.title, excerpt := acf.excerpt, content := acf.content,
        thumbnail := acf.thumbnail,
        album := album acf post.featured_media_url
          (gallerySources (parse content.rendered)) } := by
  unfold normalize
  rw [hc, hacf]

theorem isFeatured_iff (post : RawPost) :
    isFeatured post = true ↔ ∃ acf, post.acf = some acf ∧ acf.featured = true := by
  unfold isFeatured
  cases post.acf with
  | none => simp
  | some acf => simp

theorem mem_selectFeatured (allPosts : List RawPost) (p : RawPost) :
    p ∈ selectFeatured allPosts ↔ p ∈ allPosts ∧ isFeatured p = true := by
  unfold selectFeatured
  rw [(sort_perm comparator (allPosts.filter isFeatured)).mem_iff, List.mem_filter]

theorem featuredPosts_error_of_broken (parse : String → List Node) (allPosts : List RawPost)
    (p : RawPost) (hp : p ∈ allPosts) (hf : isFeatured p = true) (hc : p.content = none) :
    ∃ e, featuredPosts parse allPosts = .error e := by
  have hn : normalize parse p = .error .typeError := by
    unfold normalize
    rw [hc]
  exact mapExcept_error_of_mem (normalize parse) (selectFeatured allPosts) p
    ((mem_selectFeatured allPosts p).mpr ⟨hp, hf⟩) _ hn

/-! ## The fallback album -/

theorem fallbackAlbum_of_thumbnail (acf : Acf) (media : Option String) (t : String)
    (ht : acf.thumbnail = some t) (htt : truthy (some t) = true) :
    fallbackAlbum acf media = [t] := by
  unfold fallbackAlbum jsOr
  rw [ht]
  simp [htt]

theorem fallbackAlbum_of_media (acf : Acf) (u : String)
    (hth : truthy acf.thumbnail = false) (hu : truthy (some u) = true) :
    fallbackAlbum acf (some u) = [u] := by
  unfold fallbackAlbum jsOr
  simp [hth, hu]

theorem fallbackAlbum_of_neither (acf : Acf) (media : Option String)
    (hth : truthy acf.thumbnail = false) (hm : truthy media = false) :
    fallbackAlbum acf media = [] := by
  unfold fallbackAlbum jsOr
  simp [hth, hm]

theorem truthy_some (t : String) (h : t ≠ "") : truthy (some t) = true := by
  simp [truthy, h]

/-! ## Claims -/

/-- C1 (filter correctness).  When the chain succeeds, the output records are
the images, record by record, of a rearrangement of exactly the input posts
that have an `acf` object with truthy `acf.featured`: the output is as long as
the list of those posts, every output record is the normalization of one of
them, and each of them is used once. -/
theorem featuredPosts_one_to_one (parse : String → List Node) (allPosts : List RawPost)
    (out : List NormalizedPost) (h : featuredPosts parse allPosts = .ok out) :
    out.length = (allPosts.filter isFeatured).length ∧
    ∃ sel : List RawPost, sel.Perm (allPosts.filter isFeatured) ∧
      List.Forall₂ (fun p r => normalize parse p = .ok r) sel out ∧
      ∀ p ∈ sel, p ∈ allPosts ∧ ∃ acf, p.acf = some acf ∧ acf.featured = true := by
  have hf : List.Forall₂ (fun p r => normalize parse p = .ok r) (selectFeatured allPosts) out :=
    (mapExcept_ok_iff _ _ _).mp h
  have hperm : (selectFeatured allPosts).Perm (allPosts.filter isFeatured) :=
    sort_perm comparator _
  refine ⟨?_, selectFeatured allPosts, hperm, hf, ?_⟩
  · rw [← hf.length_eq, hperm.length_eq]
  · intro p hp
    have hm := (mem_selectFeatured allPosts p).mp hp
    exact ⟨hm.1, (isFeatured_iff p).mp hm.2⟩

/-- Witness of C1 on scenario A: a non-featured post and a featured one. -/
theorem featuredPosts_one_to_one_witness :
    featuredPosts sampleParse [plainPost, firstPost]
        = .ok [⟨2, some "Two", none, none, some "thumb2.jpg", ["thumb2.jpg"]⟩] ∧
    ([⟨2, some "Two", none, none, some "thumb2.jpg", ["thumb2.jpg"]⟩] :
        List NormalizedPost).length = ([plainPost, firstPost].filter isFeatured).length ∧
    ∃ sel : List RawPost, sel.Perm ([plainPost, firstPost].filter isFeatured) ∧
      List.Forall₂ (fun p r => normalize sampleParse p = .ok r) sel
        [⟨2, some "Two", none, none, some "thumb2.jpg", ["thumb2.jpg"]⟩] ∧
      ∀ p ∈ sel, p ∈ [plainPost, firstPost] ∧ ∃ acf, p.acf = some acf ∧ acf.featured = true :=
  ⟨by decide, featuredPosts_one_to_one sampleParse [plainPost, firstPost] _ (by decide)⟩

/-- C2 (sort correctness).  The output records are the normalizations, in
order, of the selected posts; the selected posts are in ascending order of
position (a missing position counting as `0`), for every pair and so for every
adjacent pair; and for every position `k` the selected posts at position `k`
are the featured input posts at position `k` in their input order. -/
theorem featuredPosts_sorted_stable (parse : String → List Node) (allPosts : List RawPost)
    (out : List NormalizedPost) (h : featuredPosts parse allPosts = .ok out) :
    List.Forall₂ (fun p r => normalize parse p = .ok r) (selectFeatured allPosts) out ∧
    (selectFeatured allPosts).Pairwise (fun p1 p2 => position p1 ≤ position p2) ∧
    (selectFeatured allPosts).Chain' (fun p1 p2 => position p1 ≤ position p2) ∧
    ∀ k : Int, (selectFeatured allPosts).filter (fun p => decide (position p = k))
      = (allPosts.filter isFeatured).filter (fun p => decide (position p = k)) :=
  ⟨(mapExcept_ok_iff _ _ _).mp h, sort_pairwise _,
    List.Pairwise.chain' (sort_pairwise _), fun k => sort_filter_position k _⟩

/-- Witness of C2: positions 2, missing, 0 and 1 in the input. -/
theorem featuredPosts_sorted_stable_witness :
    featuredPosts sampleParse [secondPost, galleryPost, nestedPost, firstPost]
      = .ok [ ⟨4, none, none, none, none, ["a.jpg", "b.jpg", "c.jpg"]⟩,
              ⟨5, none, none, none, none, ["a.jpg", "b.jpg", "c.jpg", "b.jpg"]⟩,
              ⟨2, some "Two", none, none, some "thumb2.jpg", ["thumb2.jpg"]⟩,
              ⟨3, none, none, none, none, ["x.jpg", "y.jpg", "a.jpg", "b.jpg", "c.jpg"]⟩ ] ∧
    selectFeatured [secondPost, galleryPost, nestedPost, firstPost]
      = [galleryPost, nestedPost, firstPost, secondPost] ∧
    (selectFeatured [secondPost, galleryPost, nestedPost, firstPost]).Pairwise
      (fun p1 p2 => position p1 ≤ position p2) :=
  ⟨by decide, by decide,
    (featuredPosts_sorted_stable sampleParse [secondPost, galleryPost, nestedPost, firstPost]
      _ (by decide :
        featuredPosts sampleParse [secondPost, galleryPost, nestedPost, firstPost]
          = .ok [ ⟨4, none, none, none, none, ["a.jpg", "b.jpg", "c.jpg"]⟩,
              ⟨5, none, none, none, none, ["a.jpg", "b.jpg", "c.jpg", "b.jpg"]⟩,
              ⟨2, some "Two", none, none, some "thumb2.jpg", ["thumb2.jpg"]⟩,
              ⟨3, none, none, none, none,
                ["x.jpg", "y.jpg", "a.jpg", "b.jpg", "c.jpg"]⟩ ])).2.1⟩

/-- C3 (album assembly).  For a featured post whose explicit album entries
(none when `acf.album` is missing) together with the scraped gallery URLs are
not empty, the callback returns a record whose album is the explicit entries
in their order followed by the scraped URLs in scrape order, and nothing
else. -/
theorem album_explicit_then_scraped (parse : String → List Node) (post : RawPost) (acf : Acf)
    (content : Content) (hacf : post.acf = some acf) (_hfeat : acf.featured = true)
    (hc : post.content = some content)
    (hne : acf.album.getD [] ++ gallerySources (parse content.rendered) ≠ []) :
    ∃ r, normalize parse post = .ok r ∧
      r.album = acf.album.getD [] ++ gallerySources (parse content.rendered) := by
  refine ⟨_, normalize_eq parse post acf content hacf hc, ?_⟩
  show album acf post.featured_media_url (gallerySources (parse content.rendered)) = _
  unfold album combinedAlbum
  rw [if_pos (List.length_pos.mpr hne)]

/-- Witness of C3: two explicit entries and three scraped ones. -/
theorem album_explicit_then_scraped_witness :
    (["x.jpg", "y.jpg"] ++ gallerySources (sampleParse galleryHtml) ≠ []) ∧
    ∃ r, normalize sampleParse secondPost = .ok r ∧
      r.album = (some ["x.jpg", "y.jpg"]).getD [] ++ gallerySources (sampleParse galleryHtml) :=
  ⟨by decide,
    album_explicit_then_scraped sampleParse secondPost
      { bareAcf true with featured_position := some 2, album := some ["x.jpg", "y.jpg"] }
      ⟨galleryHtml⟩ rfl rfl rfl (by decide)⟩

/-- C4 (album non-emptiness).  For a featured post with a content object that
has a non-empty explicit album, or an `img` element below a gallery container
of its parsed content, or a truthy `acf.thumbnail`, or a truthy
`featured_media_url`, the callback returns a record with a non-empty album.
Presence of the two fallback values is the test the code applies with `||` and
`filter(Boolean)`: the value is neither missing nor the empty string. -/
theorem album_nonempty (parse : String → List Node) (post : RawPost) (acf : Acf)
    (content : Content) (hacf : post.acf = some acf) (_hfeat : acf.featured = true)
    (hc : post.content = some content)
    (h : acf.album.getD [] ≠ [] ∨
      (∃ g ∈ subtrees (parse content.rendered), gallerySelector g = true ∧
        ∃ i ∈ subtrees g.childNodes, imgSelector i = true) ∨
      truthy acf.thumbnail = true ∨ truthy post.featured_media_url = true) :
    ∃ r, normalize parse post = .ok r ∧ r.album ≠ [] := by
  refine ⟨_, normalize_eq parse post acf content hacf hc, ?_⟩
  show album acf post.featured_media_url (gallerySources (parse content.rendered)) ≠ []
  unfold album
  split
  · rename_i hlen
    exact List.length_pos.mp hlen
  · rename_i hlen
    have hcomb : acf.album.getD [] ++ gallerySources (parse content.rendered) = [] := by
      by_contra hne
      exact hlen (List.length_pos.mpr hne)
    rw [List.append_eq_nil] at hcomb
    rcases h with h | h | h | h
    · exact absurd hcomb.1 h
    · exact absurd hcomb.2 ((gallerySources_ne_nil_iff _).mpr h)
    · cases ht : acf.thumbnail with
      | none => simp [ht, truthy] at h
      | some t =>
        rw [ht] at h
        rw [fallbackAlbum_of_thumbnail acf _ t ht h]
        exact List.cons_ne_nil _ _
    · cases hm : post.featured_media_url with
      | none => simp [hm, truthy] at h
      | some u =>
        rw [hm] at h
        cases hth : truthy acf.thumbnail with
        | false =>
          rw [fallbackAlbum_of_media acf u hth h]
          exact List.cons_ne_nil _ _
        | true =>
          cases ht : acf.thumbnail with
          | none => simp [ht, truthy] at hth
          | some t =>
            rw [ht] at hth
            rw [fallbackAlbum_of_thumbnail acf _ t ht hth]
            exact List.cons_ne_nil _ _

/-- Witness of C4: a post whose only image source is its thumbnail. -/
theorem album_nonempty_witness :
    truthy (some "thumb2.jpg") = true ∧
    ∃ r, normalize sampleParse firstPost = .ok r ∧ r.album ≠ [] :=
  ⟨by decide,
    album_nonempty sampleParse firstPost
      { bareAcf true with featured_position := some 1, title := some "Two",
                          thumbnail := some "thumb2.jpg" }
      ⟨"<p>two</p>"⟩ rfl rfl rfl (Or.inr (Or.inr (Or.inl (by decide))))⟩

/-- C5 (fallback).  For a featured post whose `acf.album` is missing or empty
and whose content yields no gallery image URL, the callback returns a record
whose album is `[acf.thumbnail]` when the thumbnail is present, else
`[featured_media_url]` when that is present, else empty.  Presence is the test
the code applies with `||` and `filter(Boolean)`: neither missing nor the
empty string. -/
theorem album_fallback (parse : String → List Node) (post : RawPost) (acf : Acf)
    (content : Content) (hacf : post.acf = some acf) (_hfeat : acf.featured = true)
    (hc : post.content = some content) (halbum : acf.album.getD [] = [])
    (hgal : gallerySources (parse content.rendered) = []) :
    ∃ r, normalize parse post = .ok r ∧
      (∀ t, acf.thumbnail = some t → t ≠ "" → r.album = [t]) ∧
      (truthy acf.thumbnail = false →
        ∀ u, post.featured_media_url = some u → u ≠ "" → r.album = [u]) ∧
      (truthy acf.thumbnail = false → truthy post.featured_media_url = false →
        r.album = []) := by
  refine ⟨_, normalize_eq parse post acf content hacf hc, ?_⟩
  have halb : album acf post.featured_media_url (gallerySources (parse content.rendered))
      = fallbackAlbum acf post.featured_media_url := by
    unfold album combinedAlbum
    rw [halbum, hgal]
    rfl
  refine ⟨?_, ?_, ?_⟩
  · intro t ht hne
    show album _ _ _ = _
    rw [halb]
    exact fallbackAlbum_of_thumbnail acf _ t ht (truthy_some t hne)
  · intro hth u hu hne
    show album _ _ _ = _
    rw [halb, hu]
    exact fallbackAlbum_of_media acf u hth (truthy_some u hne)
  · intro hth hmu
    show album _ _ _ = _
    rw [halb]
    exact fallbackAlbum_of_neither acf _ hth hmu

/-- Witness of C5 on scenario D: no album, no gallery, a thumbnail. -/
theorem album_fallback_witness :
    gallerySources (sampleParse "<p>two</p>") = [] ∧
    ∃ r, normalize sampleParse firstPost = .ok r ∧
      (∀ t, some "thumb2.jpg" = some t → t ≠ "" → r.album = [t]) ∧
      (truthy (some "thumb2.jpg") = false →
        ∀ u, firstPost.featured_media_url = some u → u ≠ "" → r.album = [u]) ∧
      (truthy (some "thumb2.jpg") = false → truthy firstPost.featured_media_url = false →
        r.album = []) :=
  ⟨by decide,
    album_fallback sampleParse firstPost
      { bareAcf true with featured_position := some 1, title := some "Two",
                          thumbnail := some "thumb2.jpg" }
      ⟨"<p>two</p>"⟩ rfl rfl rfl rfl (by decide)⟩

/-- C6, the claim as worded fails: in the nested sample the image `b.jpg`
lies in two gallery containers; listing each contained image once in document
order gives three URLs, while the callback returns four. -/
theorem album_nested_gallery_twice :
    isFeatured nestedPost = true ∧
    nestedPost.acf = some { bareAcf true with featured_position := some 0 } ∧
    ({ bareAcf true with featured_position := some 0 } : Acf).album = none ∧
    specGalleryImages (sampleParse nestedHtml) = ["a.jpg", "b.jpg", "c.jpg"] ∧
    normalize sampleParse nestedPost
      = .ok ⟨5, none, none, none, none, ["a.jpg", "b.jpg", "c.jpg", "b.jpg"]⟩ ∧
    ["a.jpg", "b.jpg", "c.jpg", "b.jpg"] ≠ specGalleryImages (sampleParse nestedHtml) := by
  decide

/-- C6, amended.  For a featured post with no explicit album entry whose parsed
content has an `img` element below a gallery container, the callback returns a
record whose album is, for each gallery container in document order, the
`src` of each `img` element below that container in document order; and when
no gallery container lies inside another one this is the list of the images
contained in some gallery container, each once, in document order. -/
theorem album_of_galleries (parse : String → List Node) (post : RawPost) (acf : Acf)
    (content : Content) (hacf : post.acf = some acf) (_hfeat : acf.featured = true)
    (hc : post.content = some content) (halbum : acf.album.getD [] = [])
    (himg : ∃ g ∈ subtrees (parse content.rendered), gallerySelector g = true ∧
      ∃ i ∈ subtrees g.childNodes, imgSelector i = true) :
    ∃ r, normalize parse post = .ok r ∧
      r.album = ((subtrees (parse content.rendered)).filter gallerySelector).flatMap
        (fun g => ((subtrees g.childNodes).filter imgSelector).map Node.src) ∧
      (noNestedGallery (parse content.rendered) = true →
        r.album = specGalleryImages (parse content.rendered)) := by
  refine ⟨_, normalize_eq parse post acf content hacf hc, ?_⟩
  have hne : gallerySources (parse content.rendered) ≠ [] :=
    (gallerySources_ne_nil_iff _).mpr himg
  have halb : album acf post.featured_media_url (gallerySources (parse content.rendered))
      = gallerySources (parse content.rendered) := by
    unfold album combinedAlbum
    rw [halbum, List.nil_append, if_pos (List.length_pos.mpr hne)]
  refine ⟨halb, ?_⟩
  intro hnest
  show album _ _ _ = _
  rw [halb, specGalleryImages_eq_gallerySources _ hnest]

/-- Witness of the amended C6 on scenario C: a block gallery with three images
and a loose image next to it. -/
theorem album_of_galleries_witness :
    noNestedGallery (sampleParse galleryHtml) = true ∧
    specGalleryImages (sampleParse galleryHtml) = ["a.jpg", "b.jpg", "c.jpg"] ∧
    ∃ r, normalize sampleParse galleryPost = .ok r ∧
      r.album = ((subtrees (sampleParse galleryHtml)).filter gallerySelector).flatMap
        (fun g => ((subtrees g.childNodes).filter imgSelector).map Node.src) ∧
      (noNestedGallery (sampleParse galleryHtml) = true →
        r.album = specGalleryImages (sampleParse galleryHtml)) :=
  ⟨by decide, by decide,
    album_of_galleries sampleParse galleryPost (bareAcf true) ⟨galleryHtml⟩ rfl rfl rfl rfl
      ⟨.element "figure" ["wp-block-gallery"] ""
          [ .element "img" [] "a.jpg" [], .element "img" [] "b.jpg" [],
            .element "img" [] "c.jpg" [] ],
        by simp [sampleParse, galleryDom, subtrees, Node.subtree], by decide,
        .element "img" [] "a.jpg" [],
        by simp [Node.childNodes, subtrees, Node.subtree], by decide⟩⟩

/-- C7 (no partial degradation).  When the request raises, or the chain
raises, or the payload holds a featured post without a `content` object, the
component ends with the generic error message, `loading` false and an empty
post list: no record of that payload is output. -/
theorem run_failed (parse : String → List Node) (response : Except Exn (List RawPost))
    (h : (∃ e, response = .error e) ∨
      (∃ allPosts e, response = .ok allPosts ∧ featuredPosts parse allPosts = .error e) ∨
      (∃ allPosts p, response = .ok allPosts ∧ p ∈ allPosts ∧ isFeatured p = true ∧
        p.content = none)) :
    run parse response
      = { posts := [], loading := false, error := some "Failed to fetch posts" } := by
  have key : ∀ allPosts e, featuredPosts parse allPosts = .error e →
      run parse (.ok allPosts)
        = { posts := [], loading := false, error := some "Failed to fetch posts" } := by
    intro allPosts e he
    unfold run fetchPosts
    simp only [he]
    rfl
  rcases h with ⟨e, rfl⟩ | ⟨allPosts, e, rfl, he⟩ | ⟨allPosts, p, rfl, hp, hf, hc⟩
  · rfl
  · exact key allPosts e he
  · obtain ⟨e, he⟩ := featuredPosts_error_of_broken parse allPosts p hp hf hc
    exact key allPosts e he

/-- Witness of C7: a well-formed featured post next to one without content. -/
theorem run_failed_witness :
    (brokenPost ∈ [firstPost, brokenPost] ∧ isFeatured brokenPost = true ∧
      brokenPost.content = none) ∧
    run sampleParse (.ok [firstPost, brokenPost])
      = { posts := [], loading := false, error := some "Failed to fetch posts" } :=
  ⟨by decide,
    run_failed sampleParse (.ok [firstPost, brokenPost])
      (Or.inr (Or.inr ⟨[firstPost, brokenPost], brokenPost, rfl, by decide, by decide, rfl⟩))⟩

/-- C8 (posts without `acf`).  The outcome of the chain, and of the whole
effect from any state, on a raw list is its outcome on the list with the posts
that have no `acf` object removed. -/
theorem acfless_posts_ignored (parse : String → List Node) (allPosts : List RawPost)
    (st : State) :
    featuredPosts parse allPosts
      = featuredPosts parse (allPosts.filter (fun p => p.acf.isSome)) ∧
    fetchPosts parse (.ok allPosts) st
      = fetchPosts parse (.ok (allPosts.filter (fun p => p.acf.isSome))) st := by
  have hfil : (allPosts.filter (fun p => p.acf.isSome)).filter isFeatured
      = allPosts.filter isFeatured := by
    rw [List.filter_filter]
    apply List.filter_congr
    intro p _
    unfold isFeatured
    cases p.acf with
    | none => rfl
    | some acf => simp
  have hfp : featuredPosts parse allPosts
      = featuredPosts parse (allPosts.filter (fun p => p.acf.isSome)) := by
    unfold featuredPosts selectFeatured
    rw [hfil]
  refine ⟨hfp, ?_⟩
  unfold fetchPosts
  simp only [hfp]

/-- C9 (projection).  For a featured post with a content object, the callback
returns the record with `id = post.id`, the four `acf` fields copied as they
are (a missing one stays missing) and the album built for that post. -/
theorem normalize_projection (parse : String → List Node) (post : RawPost) (acf : Acf)
    (content : Content) (hacf : post.acf = some acf) (_hfeat : acf.featured = true)
    (hc : post.content = some content) :
    ∃ r, normalize parse post = .ok r ∧
      r.id = post.id ∧ r.title = acf.title ∧ r.excerpt = acf.excerpt ∧
      r.content = acf.content ∧ r.thumbnail = acf.thumbnail ∧
      r.album = album acf post.featured_media_url (gallerySources (parse content.rendered)) :=
  ⟨_, normalize_eq parse post acf content hacf hc, rfl, rfl, rfl, rfl, rfl, rfl⟩

/-- Witness of C9: a post with a title and a thumbnail, without excerpt. -/
theorem normalize_projection_witness :
    normalize sampleParse firstPost
      = .ok ⟨2, some "Two", none, none, some "thumb2.jpg", ["thumb2.jpg"]⟩ ∧
    ∃ r, normalize sampleParse firstPost = .ok r ∧
      r.id = 2 ∧ r.title = some "Two" ∧ r.excerpt = none ∧
      r.content = none ∧ r.thumbnail = some "thumb2.jpg" ∧
      r.album = album { bareAcf true with featured_position := some 1, title := some "Two",
                                          thumbnail := some "thumb2.jpg" }
        (some "media2.jpg") (gallerySources (sampleParse "<p>two</p>")) :=
  ⟨by decide,
    normalize_projection sampleParse firstPost
      { bareAcf true with featured_position := some 1, title := some "Two",
                          thumbnail := some "thumb2.jpg" }
      ⟨"<p>two</p>"⟩ rfl rfl rfl⟩

/-- C10, the claim as worded fails: the output does not depend on the raw
payload alone.  The same one-post payload, transformed in documents at two
URLs, gives two different albums, because `img.src` is the `src` attribute
resolved against the URL of the document. -/
theorem featuredPosts_document_url :
    featuredPosts (sampleParseIn "https://sensorium.ii.agh.edu.pl/") [galleryPost]
      = .ok [⟨4, none, none, none, none,
          ["https://sensorium.ii.agh.edu.pl/a.jpg", "https://sensorium.ii.agh.edu.pl/b.jpg",
            "https://sensorium.ii.agh.edu.pl/c.jpg"]⟩] ∧
    featuredPosts (sampleParseIn "https://sensorium.ii.agh.edu.pl/posts/") [galleryPost]
      = .ok [⟨4, none, none, none, none,
          ["https://sensorium.ii.agh.edu.pl/posts/a.jpg",
            "https://sensorium.ii.agh.edu.pl/posts/b.jpg",
            "https://sensorium.ii.agh.edu.pl/posts/c.jpg"]⟩] ∧
    featuredPosts (sampleParseIn "https://sensorium.ii.agh.edu.pl/") [galleryPost]
      ≠ featuredPosts (sampleParseIn "https://sensorium.ii.agh.edu.pl/posts/") [galleryPost] := by
  decide

/-- C10, amended.  Two runs on the same raw payload, each with the parser of
its document, yield the same outcome as soon as the two documents give the
same scraped gallery URLs for the content of every featured post (as they do
when the document URL is the same): the output depends on the raw payload and
on those resolved URLs only.  It does not depend on the state the effect
starts from, and a second such run leaves the state of the first unchanged. -/
theorem featuredPosts_depends_on_sources (parse1 parse2 : String → List Node)
    (allPosts : List RawPost) (st1 st2 : State)
    (hsrc : ∀ p ∈ allPosts, isFeatured p = true → ∀ c, p.content = some c →
      gallerySources (parse1 c.rendered) = gallerySources (parse2 c.rendered)) :
    featuredPosts parse1 allPosts = featuredPosts parse2 allPosts ∧
    (∀ out, featuredPosts parse1 allPosts = .ok out →
      (fetchPosts parse1 (.ok allPosts) st1).posts = out ∧
      (fetchPosts parse2 (.ok allPosts) st2).posts = out) ∧
    fetchPosts parse2 (.ok allPosts) (fetchPosts parse1 (.ok allPosts) st1)
      = fetchPosts parse1 (.ok allPosts) st1 := by
  have hnorm : ∀ p ∈ selectFeatured allPosts, normalize parse1 p = normalize parse2 p := by
    intro p hp
    have hm := (mem_selectFeatured allPosts p).mp hp
    unfold normalize
    cases hc : p.content with
    | none => rfl
    | some c => simp only [hsrc p hm.1 hm.2 c hc]
  have heq : featuredPosts parse1 allPosts = featuredPosts parse2 allPosts :=
    mapExcept_congr _ _ _ hnorm
  have hrun : ∀ (parse : String → List Node) (st : State),
      fetchPosts parse (.ok allPosts) st
        = (match featuredPosts parse allPosts with
          | .error _ => onCatch st
          | .ok featured => { st with posts := featured, loading := false }) :=
    fun _ _ => rfl
  refine ⟨heq, ?_, ?_⟩
  · intro out hout
    rw [hrun parse1 st1, hrun parse2 st2, ← heq, hout]
    exact ⟨rfl, rfl⟩
  · rw [hrun parse2, hrun parse1 st1, ← heq]
    cases featuredPosts parse1 allPosts with
    | error e => rfl
    | ok out => rfl

/-- Witness of the amended C10: the sample parser and the parser of a document
at the site root agree on the content of the only featured post, which has no
gallery. -/
theorem featuredPosts_depends_on_sources_witness :
    (∀ p ∈ [plainPost, firstPost], isFeatured p = true → ∀ c, p.content = some c →
      gallerySources (sampleParse c.rendered)
        = gallerySources (sampleParseIn "https://sensorium.ii.agh.edu.pl/" c.rendered)) ∧
    featuredPosts sampleParse [plainPost, firstPost]
      = featuredPosts (sampleParseIn "https://sensorium.ii.agh.edu.pl/") [plainPost, firstPost] ∧
    (∀ out, featuredPosts sampleParse [plainPost, firstPost] = .ok out →
      (fetchPosts sampleParse (.ok [plainPost, firstPost]) initialState).posts = out ∧
      (fetchPosts (sampleParseIn "https://sensorium.ii.agh.edu.pl/")
        (.ok [plainPost, firstPost]) (onCatch initialState)).posts = out) ∧
    fetchPosts (sampleParseIn "https://sensorium.ii.agh.edu.pl/") (.ok [plainPost, firstPost])
        (fetchPosts sampleParse (.ok [plainPost, firstPost]) initialState)
      = fetchPosts sampleParse (.ok [plainPost, firstPost]) initialState :=
  have hsrc : ∀ p ∈ [plainPost, firstPost], isFeatured p = true → ∀ c, p.content = some c →
      gallerySources (sampleParse c.rendered)
        = gallerySources (sampleParseIn "https://sensorium.ii.agh.edu.pl/" c.rendered) := by
    intro p hp hf c hc
    simp only [List.mem_cons, List.mem_singleton, List.not_mem_nil, or_false] at hp
    rcases hp with rfl | rfl
    · exact absurd hf (by decide)
    · have hcc : c = ⟨"<p>two</p>"⟩ := (Option.some.inj hc).symm
      subst hcc
      decide
  ⟨hsrc, featuredPosts_depends_on_sources sampleParse
    (sampleParseIn "https://sensorium.ii.agh.edu.pl/") [plainPost, firstPost] initialState
    (onCatch initialState) hsrc⟩

end Sensorium
